import Mathlib

/-!
The `droppable` directive.

A shallow embedding of `ui/src/main/webapp/app/directives/common/droppable.js`.

The directive's `link` function registers four listeners on the native node
`element[0]`.  Each listener is a JavaScript function that mutates the node's
class list and the event it receives, and may throw.  They are embedded as
computations over an explicit context (`Ctx`) holding `this` (the class list of
the node), the event `e`, and a trace of every observable step the listener
performs, in program order.

The browser and AngularJS services the listeners call are not part of the
repository.  They are modelled as follows.

* `JSON.parse`, the behaviour of a called function and of `$exceptionHandler`
  are parameters, collected in `Platform`; every theorem holds for all of them.
* `scope.drop()` is a parameter (`Scope.drop`): either the value the bound
  expression yields, or the error its evaluation throws.
* `scope.$apply(f)` follows the AngularJS contract: it evaluates `f`, hands an
  exception of `f` to `$exceptionHandler`, and finally runs a digest.  A
  listener is run by the browser, outside of any digest, so `$apply` is never
  refused.  The digest and the called function are assumed not to touch the
  node's classes.
* `classList` is a `DOMTokenList`: `add` appends a token that is not yet
  present, `remove` deletes every occurrence of the token.
* `DataTransfer.getData` returns the empty string for a format with no entry.
  The browser normalises the format the same way when data is stored and when
  it is read, so formats are compared as written.
* Numbers and objects are only carried from the parser to the callback, never
  computed with, so a number is an integer and an object is a reference.
-/

namespace Droppable

/-! ## JavaScript values -/

/-- JavaScript values, as far as the directive can tell them apart. -/
inductive JSValue where
  | undefined
  | null
  | bool (b : Bool)
  | number (n : Int)
  | string (s : String)
  | object (ref : Nat)
  | function (ref : Nat)
  deriving DecidableEq, Repr

/-- The `typeof` operator. -/
def typeOf : JSValue → String
  | .undefined => "undefined"
  | .null => "object"
  | .bool _ => "boolean"
  | .number _ => "number"
  | .string _ => "string"
  | .object _ => "object"
  | .function _ => "function"

/-- Exceptions a listener can raise. -/
inductive JSError where
  | typeError (msg : String)
  | syntaxError (msg : String)
  | thrown (v : JSValue)
  deriving DecidableEq, Repr

/-! ## Events and nodes -/

/-- The `dataTransfer` object of a drag event. -/
structure DataTransfer where
  dropEffect : String
  items : List (String × String)
  deriving DecidableEq, Repr

/-- `dataTransfer.getData(format)`: the stored data, or `""` when there is none. -/
def DataTransfer.getData (dt : DataTransfer) (format : String) : String :=
  match dt.items.lookup format with
  | some d => d
  | none => ""

/-- A drag event.  `preventDefault` and `stopPropagation` say whether the event
provides the method of that name (the listeners test for it before calling). -/
structure Event where
  type : String
  dataTransfer : Option DataTransfer
  preventDefault : Bool
  stopPropagation : Bool
  deriving DecidableEq, Repr

/-- An argument passed to the callback: the event object or a plain value. -/
inductive Arg where
  | event (e : Event)
  | value (v : JSValue)
  deriving DecidableEq, Repr

/-- The observable steps of a listener. -/
inductive Effect where
  | setDropEffect (v : String)
  | preventDefault
  | stopPropagation
  | classListAdd (token : String)
  | classListRemove (token : String)
  | getData (format : String)
  | jsonParse (text : String)
  | apply
  | evalDrop
  | call (callee : JSValue) (args : List Arg)
  | exceptionHandler (err : JSError)
  | digest
  deriving DecidableEq, Repr

/-- Services of the browser and of AngularJS that the listeners rely on. -/
structure Platform where
  /-- `JSON.parse`: the parsed value, or `none` when the text is not valid JSON. -/
  jsonParse : String → Option JSValue
  /-- What calling function `ref` with `args` does: `none` when it returns,
  `some err` when it throws `err`. -/
  invoke : Nat → List Arg → Option JSError
  /-- Whether `$exceptionHandler` rethrows the exception it is given. -/
  rethrow : Bool

/-- The isolate scope of the directive: `drop` is what `scope.drop()` does. -/
structure Scope where
  drop : Except JSError JSValue

/-- The context a listener runs in. -/
structure Ctx where
  /-- The class list of `this`, the node the listener is registered on. -/
  this : List String
  /-- The event `e` passed to the listener. -/
  e : Event
  /-- The steps performed so far, oldest first. -/
  trace : List Effect

/-! ## Listener computations -/

/-- A listener computation: from a context to a result or exception, and the
context it leaves behind. -/
def M (α : Type) : Type := Ctx → Except JSError α × Ctx

/-- Return a value. -/
def M.pure {α : Type} (a : α) : M α := fun c => (.ok a, c)

/-- Sequence two computations; an exception of the first skips the second. -/
def M.bind {α β : Type} (m : M α) (f : α → M β) : M β := fun c =>
  match m c with
  | (.ok a, c1) => f a c1
  | (.error err, c1) => (.error err, c1)

instance : Monad M where
  pure := M.pure
  bind := M.bind

/-- Throw an exception. -/
def throwJS {α : Type} (err : JSError) : M α := fun c => (.error err, c)

/-- Record a step. -/
def emit (x : Effect) : M Unit := fun c => (.ok (), { c with trace := c.trace ++ [x] })

/-- The event `e`. -/
def getEvent : M Event := fun c => (.ok c.e, c)

/-- `classList.add(token)` on a token list. -/
def tokensAdd (cls : List String) (token : String) : List String :=
  if token ∈ cls then cls else cls ++ [token]

/-- `classList.remove(token)` on a token list. -/
def tokensRemove (cls : List String) (token : String) : List String :=
  cls.filter (fun t => t ≠ token)

/-- `this.classList.add(token)`. -/
def classListAdd (token : String) : M Unit := fun c =>
  (.ok (), { c with this := tokensAdd c.this token, trace := c.trace ++ [.classListAdd token] })

/-- `this.classList.remove(token)`. -/
def classListRemove (token : String) : M Unit := fun c =>
  (.ok (), { c with this := tokensRemove c.this token,
                    trace := c.trace ++ [.classListRemove token] })

/-- `e.dataTransfer.dropEffect = v`; a `TypeError` when `e.dataTransfer` is missing. -/
def setDropEffect (v : String) : M Unit := fun c =>
  match c.e.dataTransfer with
  | none => (.error (.typeError "Cannot set properties of undefined"), c)
  | some dt =>
    (.ok (), { c with e := { c.e with dataTransfer := some { dt with dropEffect := v } },
                      trace := c.trace ++ [.setDropEffect v] })

/-- `e.dataTransfer.getData(format)`; a `TypeError` when `e.dataTransfer` is missing. -/
def getData (format : String) : M String := fun c =>
  match c.e.dataTransfer with
  | none => (.error (.typeError "Cannot read properties of undefined"), c)
  | some dt => (.ok (dt.getData format), { c with trace := c.trace ++ [.getData format] })

/-- `JSON.parse(text)`; a `SyntaxError` when the text is not valid JSON. -/
def jsonParse (P : Platform) (text : String) : M JSValue := do
  emit (.jsonParse text)
  match P.jsonParse text with
  | some v => pure v
  | none => throwJS (.syntaxError "Unexpected token in JSON")

/-- `scope.drop()`. -/
def scopeDrop (scope : Scope) : M JSValue := do
  emit .evalDrop
  match scope.drop with
  | .ok v => pure v
  | .error err => throwJS err

/-- The call expression `callee(args)`; a `TypeError` when `callee` is not a function. -/
def callFn (P : Platform) (callee : JSValue) (args : List Arg) : M Unit := do
  emit (.call callee args)
  match callee with
  | .function ref =>
    match P.invoke ref args with
    | none => pure ()
    | some err => throwJS err
  | _ => throwJS (.typeError "fn is not a function")

/-- `scope.$apply(body)`: evaluate `body`, pass its exception to
`$exceptionHandler`, and digest in any case. -/
def scopeApply (P : Platform) (body : M Unit) : M Unit := fun c =>
  match body { c with trace := c.trace ++ [.apply] } with
  | (.ok _, c1) => (.ok (), { c1 with trace := c1.trace ++ [.digest] })
  | (.error err, c1) =>
    (if P.rethrow then .error err else .ok (),
     { c1 with trace := c1.trace ++ [.exceptionHandler err, .digest] })

/-! ## The four listeners -/

/-- The `dragover` listener (lines 17-26). -/
def dragoverHandler : M Bool := do
  setDropEffect "move"
  let e ← getEvent
  if e.preventDefault then
    emit .preventDefault
  classListAdd "over"
  return false

/-- The `dragenter` listener (lines 32-36). -/
def dragenterHandler : M Bool := do
  classListAdd "over"
  return false

/-- The `dragleave` listener (lines 42-46). -/
def dragleaveHandler : M Bool := do
  classListRemove "over"
  return false

/-- The `drop` listener (lines 52-70). -/
def dropHandler (P : Platform) (scope : Scope) : M Bool := do
  let e ← getEvent
  if e.stopPropagation then
    emit .stopPropagation
  classListRemove "over"
  let dragData ← jsonParse P (← getData "dragData")
  scopeApply P (do
    let fn ← scopeDrop scope
    if "undefined" ≠ typeOf fn then
      callFn P fn [.event e, .value dragData])
  return false

/-- Run a listener on a node with class list `cls` for event `e`, from an empty trace. -/
def runListener {α : Type} (m : M α) (cls : List String) (e : Event) :
    Except JSError α × Ctx :=
  m { this := cls, e := e, trace := [] }

/-! ## Linking and event delivery -/

/-- The four function expressions `link` registers.  The `drop` listener closes
over the directive's `scope`. -/
inductive Listener where
  | dragover
  | dragenter
  | dragleave
  | drop (scope : Scope)

/-- The body of a listener. -/
def Listener.run (P : Platform) : Listener → M Bool
  | .dragover => dragoverHandler
  | .dragenter => dragenterHandler
  | .dragleave => dragleaveHandler
  | .drop scope => dropHandler P scope

/-- One `addEventListener` registration. -/
structure Registration where
  type : String
  listener : Listener
  useCapture : Bool

/-- A native DOM node: its class list and the listeners registered on it. -/
structure Node where
  classList : List String
  listeners : List Registration

/-- `el.addEventListener(type, listener, useCapture)`.  Every function
expression evaluates to a fresh function, so a registration is never a
duplicate of an earlier one. -/
def addEventListener (el : Node) (type : String) (listener : Listener) (useCapture : Bool) :
    Node :=
  { el with listeners := el.listeners ++ [{ type := type, listener := listener,
                                            useCapture := useCapture }] }

/-- The directive's `link(scope, element)` (lines 11-73).  `element` is the
jqLite wrapper, a list of nodes; `element[0]` is its first node, and calling a
method of it throws a `TypeError` when the wrapper is empty. -/
def link (scope : Scope) (element : List Node) : Except JSError (List Node) :=
  match element with
  | [] => .error (.typeError "Cannot read properties of undefined")
  | el :: rest =>
    let el := addEventListener el "dragover" .dragover false
    let el := addEventListener el "dragenter" .dragenter false
    let el := addEventListener el "dragleave" .dragleave false
    let el := addEventListener el "drop" (.drop scope) false
    .ok (el :: rest)

/-- What delivering events to a node leaves behind: the node, the steps the
listeners performed, and the outcome of every listener that ran. -/
structure Delivery where
  el : Node
  trace : List Effect
  outcomes : List (Except JSError Bool)

/-- Run the registrations `regs` that match the type of `e`, in registration
order, on the class list `cls`.  An exception of one listener is reported and
does not stop the next one. -/
def runRegistrations (P : Platform) :
    List Registration → Ctx → List (Except JSError Bool) → Ctx × List (Except JSError Bool)
  | [], c, out => (c, out)
  | r :: regs, c, out =>
    if r.type = c.e.type then
      match r.listener.run P c with
      | (res, c1) => runRegistrations P regs c1 (out ++ [res])
    else runRegistrations P regs c out

/-- Deliver the event `e` to the node `el` as its target. -/
def dispatchEvent (P : Platform) (el : Node) (e : Event) : Delivery :=
  match runRegistrations P el.listeners { this := el.classList, e := e, trace := [] } [] with
  | (c, out) => { el := { el with classList := c.this }, trace := c.trace, outcomes := out }

/-- Deliver a sequence of events to `el`, one after the other. -/
def dispatchAll (P : Platform) (el : Node) : List Event → Node
  | [] => el
  | e :: es => dispatchAll P (dispatchEvent P el e).el es

/-- Whether a step is the evaluation of a call expression. -/
def Effect.isCall : Effect → Bool
  | .call _ _ => true
  | _ => false

/-- Whether a step is a call whose callee is a function: a callback invocation. -/
def Effect.isInvocation : Effect → Bool
  | .call (.function _) _ => true
  | _ => false

/-- Whether a step hands an exception to `$exceptionHandler`. -/
def Effect.isException : Effect → Bool
  | .exceptionHandler _ => true
  | _ => false

/-- Whether a step reaches the caller: evaluating the drop binding, calling,
or entering `scope.$apply`. -/
def Effect.reachesCaller : Effect → Bool
  | .apply => true
  | .evalDrop => true
  | .call _ _ => true
  | _ => false

/-- The call expressions evaluated in a trace, in order. -/
def calls (t : List Effect) : List Effect := t.filter Effect.isCall

/-- The callback invocations in a trace, in order. -/
def invocations (t : List Effect) : List Effect := t.filter Effect.isInvocation

/-! ## Sample inputs -/

/-- A JSON parser that accepts the text `1` only. -/
def sampleParse (text : String) : Option JSValue :=
  if text = "1" then some (.number 1) else none

/-- A platform where called functions return and `$exceptionHandler` only logs. -/
def samplePlatform : Platform :=
  { jsonParse := sampleParse, invoke := fun _ _ => none, rethrow := false }

/-- A `dataTransfer` whose `dragData` entry is the JSON text `1`. -/
def sampleTransfer : DataTransfer :=
  { dropEffect := "none", items := [("dragData", "1")] }

/-- A `dataTransfer` with no `dragData` entry. -/
def emptyTransfer : DataTransfer :=
  { dropEffect := "none", items := [] }

/-- A browser event of the given type carrying `dt`. -/
def sampleEvent (type : String) (dt : DataTransfer) : Event :=
  { type := type, dataTransfer := some dt, preventDefault := true, stopPropagation := true }

/-! ## The drop listener and the callback -/

/-- C1: when the `dragData` payload of a drop event is valid JSON and
`scope.drop()` yields a function `fn`, the drop listener evaluates exactly one
call expression, that call invokes `fn`, and its arguments are exactly the drop
event and the parsed payload. -/
theorem drop_invokes_callback_once (P : Platform) (scope : Scope) (cls : List String)
    (e : Event) (dt : DataTransfer) (v : JSValue) (ref : Nat)
    (hdt : e.dataTransfer = some dt)
    (hjson : P.jsonParse (dt.getData "dragData") = some v)
    (hfn : scope.drop = .ok (.function ref)) :
    calls (runListener (dropHandler P scope) cls e).2.trace
        = [.call (.function ref) [.event e, .value v]] ∧
      invocations (runListener (dropHandler P scope) cls e).2.trace
        = [.call (.function ref) [.event e, .value v]] := by
  cases hsp : e.stopPropagation <;> cases hi : P.invoke ref [.event e, .value v] <;>
    cases hr : P.rethrow <;>
    simp [runListener, dropHandler, bind, M.bind, getEvent, emit, pure, M.pure,
      classListRemove, getData, jsonParse, scopeApply, scopeDrop, callFn, typeOf, calls,
      invocations, Effect.isCall, Effect.isInvocation, throwJS, hjson, hfn, hdt, hsp, hi, hr]

/-- Witness of C1: a drop of the payload `1` on a node whose binding yields function 7. -/
theorem drop_invokes_callback_once_witness :
    (sampleEvent "drop" sampleTransfer).dataTransfer = some sampleTransfer ∧
      samplePlatform.jsonParse (sampleTransfer.getData "dragData") = some (.number 1) ∧
      invocations (runListener (dropHandler samplePlatform ⟨.ok (.function 7)⟩) ["over"]
          (sampleEvent "drop" sampleTransfer)).2.trace
        = [.call (.function 7) [.event (sampleEvent "drop" sampleTransfer), .value (.number 1)]] :=
  ⟨rfl, by decide,
    (drop_invokes_callback_once samplePlatform ⟨.ok (.function 7)⟩ ["over"]
      (sampleEvent "drop" sampleTransfer) sampleTransfer (.number 1) 7 rfl (by decide) rfl).2⟩

/-- C2: when the payload is valid JSON and `scope.drop()` yields `undefined`,
the drop listener evaluates no call, raises no exception (none reaches
`$exceptionHandler` and none leaves the listener), leaves the node without the
class `over` and otherwise unchanged, and returns `false`. -/
theorem drop_undefined_binding (P : Platform) (scope : Scope) (cls : List String)
    (e : Event) (dt : DataTransfer) (v : JSValue)
    (hdt : e.dataTransfer = some dt)
    (hjson : P.jsonParse (dt.getData "dragData") = some v)
    (hfn : scope.drop = .ok .undefined) :
    calls (runListener (dropHandler P scope) cls e).2.trace = [] ∧
      (runListener (dropHandler P scope) cls e).2.trace.filter Effect.isException = [] ∧
      (runListener (dropHandler P scope) cls e).1 = .ok false ∧
      (runListener (dropHandler P scope) cls e).2.this = tokensRemove cls "over" ∧
      "over" ∉ (runListener (dropHandler P scope) cls e).2.this := by
  cases hsp : e.stopPropagation <;>
    simp [runListener, dropHandler, bind, M.bind, getEvent, emit, pure, M.pure,
      classListRemove, getData, jsonParse, scopeApply, scopeDrop, callFn, typeOf, calls,
      Effect.isCall, Effect.isException, throwJS, tokensRemove, hjson, hfn, hdt, hsp]

/-- Witness of C2: a drop of the payload `1` on a node whose binding yields `undefined`. -/
theorem drop_undefined_binding_witness :
    (sampleEvent "drop" sampleTransfer).dataTransfer = some sampleTransfer ∧
      samplePlatform.jsonParse (sampleTransfer.getData "dragData") = some (.number 1) ∧
      calls (runListener (dropHandler samplePlatform ⟨.ok .undefined⟩) ["a", "over"]
          (sampleEvent "drop" sampleTransfer)).2.trace = [] :=
  ⟨rfl, by decide,
    (drop_undefined_binding samplePlatform ⟨.ok .undefined⟩ ["a", "over"]
      (sampleEvent "drop" sampleTransfer) sampleTransfer (.number 1) rfl (by decide) rfl).1⟩

/-- C3 fails as stated: `null` is not a function, the payload `1` is valid JSON,
and yet the drop listener evaluates the call `fn(e, dragData)` with `fn = null`,
which raises a `TypeError` that reaches `$exceptionHandler`. -/
theorem drop_null_binding_is_called :
    typeOf .null ≠ "function" ∧
      samplePlatform.jsonParse (sampleTransfer.getData "dragData") = some (.number 1) ∧
      calls (runListener (dropHandler samplePlatform ⟨.ok .null⟩) ["over"]
          (sampleEvent "drop" sampleTransfer)).2.trace
        = [.call .null [.event (sampleEvent "drop" sampleTransfer), .value (.number 1)]] ∧
      (runListener (dropHandler samplePlatform ⟨.ok .null⟩) ["over"]
          (sampleEvent "drop" sampleTransfer)).2.trace.filter Effect.isException
        = [.exceptionHandler (.typeError "fn is not a function")] := by
  decide

/-- C3, amended: the guard of the drop listener tests for `undefined` only.
When the payload is valid JSON and `scope.drop()` yields a value `fn`, the
listener evaluates the call `fn(e, dragData)` exactly when `typeof fn` is not
`'undefined'`; when it is `'undefined'` the listener evaluates no call, raises
no exception and returns `false`. -/
theorem drop_guard_tests_undefined_only (P : Platform) (scope : Scope) (cls : List String)
    (e : Event) (dt : DataTransfer) (v fn : JSValue)
    (hdt : e.dataTransfer = some dt)
    (hjson : P.jsonParse (dt.getData "dragData") = some v)
    (hfn : scope.drop = .ok fn) :
    (typeOf fn ≠ "undefined" →
        calls (runListener (dropHandler P scope) cls e).2.trace
          = [.call fn [.event e, .value v]]) ∧
      (typeOf fn = "undefined" →
        calls (runListener (dropHandler P scope) cls e).2.trace = [] ∧
        (runListener (dropHandler P scope) cls e).2.trace.filter Effect.isException = [] ∧
        (runListener (dropHandler P scope) cls e).1 = .ok false) := by
  cases hsp : e.stopPropagation <;> cases hr : P.rethrow <;> cases fn <;>
    first
    | (simp [runListener, dropHandler, bind, M.bind, getEvent, emit, pure, M.pure,
        classListRemove, getData, jsonParse, scopeApply, scopeDrop, callFn, typeOf, calls,
        Effect.isCall, Effect.isException, throwJS, hjson, hfn, hdt, hsp, hr]; done)
    | (rename_i ref
       cases hi : P.invoke ref [.event e, .value v] <;>
        simp [runListener, dropHandler, bind, M.bind, getEvent, emit, pure, M.pure,
          classListRemove, getData, jsonParse, scopeApply, scopeDrop, callFn, typeOf, calls,
          Effect.isCall, Effect.isException, throwJS, hjson, hfn, hdt, hsp, hr, hi])

/-- Witness of C3, amended: the binding yields `null`, whose `typeof` is `'object'`. -/
theorem drop_guard_tests_undefined_only_witness :
    (sampleEvent "drop" sampleTransfer).dataTransfer = some sampleTransfer ∧
      samplePlatform.jsonParse (sampleTransfer.getData "dragData") = some (.number 1) ∧
      typeOf .null ≠ "undefined" ∧
      calls (runListener (dropHandler samplePlatform ⟨.ok .null⟩) ["over"]
          (sampleEvent "drop" sampleTransfer)).2.trace
        = [.call .null [.event (sampleEvent "drop" sampleTransfer), .value (.number 1)]] :=
  ⟨rfl, by decide, by decide,
    (drop_guard_tests_undefined_only samplePlatform ⟨.ok .null⟩ ["over"]
      (sampleEvent "drop" sampleTransfer) sampleTransfer (.number 1) .null rfl (by decide)
      rfl).1 (by decide)⟩

/-! ## The dragover listener -/

/-- C5: for a dragover event that carries a `dataTransfer` object, after the
dragover listener has run the `dropEffect` of that object is `'move'` (its other
data is unchanged), `preventDefault` has been called exactly once if the event
provides it and not at all otherwise, and the listener returns `false`. -/
theorem dragover_allows_drop (cls : List String) (e : Event) (dt : DataTransfer)
    (hdt : e.dataTransfer = some dt) :
    (runListener dragoverHandler cls e).2.e.dataTransfer
        = some { dt with dropEffect := "move" } ∧
      ((runListener dragoverHandler cls e).2.trace.count .preventDefault
        = if e.preventDefault then 1 else 0) ∧
      (runListener dragoverHandler cls e).1 = .ok false := by
  cases hpd : e.preventDefault <;>
    simp [runListener, dragoverHandler, bind, M.bind, getEvent, emit, pure, M.pure,
      classListAdd, setDropEffect, hdt, hpd]

/-- Witness of C5: a dragover event that provides `preventDefault`. -/
theorem dragover_allows_drop_witness :
    (sampleEvent "dragover" sampleTransfer).dataTransfer = some sampleTransfer ∧
      (runListener dragoverHandler [] (sampleEvent "dragover" sampleTransfer)).2.e.dataTransfer
        = some { sampleTransfer with dropEffect := "move" } :=
  ⟨rfl, (dragover_allows_drop [] (sampleEvent "dragover" sampleTransfer) sampleTransfer rfl).1⟩

/-! ## Propagation and payload errors in the drop listener -/

/-- C7: for a drop event that provides `stopPropagation`, the first step of the
drop listener is the call of `stopPropagation` and no later step calls it again,
whatever the payload, the `dataTransfer` object and the drop binding are.  So it
is called exactly once, before the payload is read or parsed, also when parsing
fails or no callback is registered. -/
theorem drop_stops_propagation_first (P : Platform) (scope : Scope) (cls : List String)
    (e : Event) (hsp : e.stopPropagation = true) :
    ∃ rest, (runListener (dropHandler P scope) cls e).2.trace = .stopPropagation :: rest ∧
      .stopPropagation ∉ rest := by
  cases hdt : e.dataTransfer with
  | none =>
    simp [runListener, dropHandler, bind, M.bind, getEvent, emit, pure, M.pure,
      classListRemove, getData, hdt, hsp]
  | some dt =>
    cases hj : P.jsonParse (dt.getData "dragData") with
    | none =>
      simp [runListener, dropHandler, bind, M.bind, getEvent, emit, pure, M.pure,
        classListRemove, getData, jsonParse, throwJS, hdt, hsp, hj]
    | some v =>
      cases hr : P.rethrow <;> cases hd : scope.drop with
      | error err =>
        simp [runListener, dropHandler, bind, M.bind, getEvent, emit, pure, M.pure,
          classListRemove, getData, jsonParse, scopeApply, scopeDrop, throwJS, hdt, hsp, hj,
          hr, hd]
      | ok fn =>
        cases fn <;>
          first
          | (simp [runListener, dropHandler, bind, M.bind, getEvent, emit, pure, M.pure,
              classListRemove, getData, jsonParse, scopeApply, scopeDrop, callFn, typeOf,
              throwJS, hdt, hsp, hj, hr, hd]; done)
          | (rename_i ref
             cases hi : P.invoke ref [.event e, .value v] <;>
              simp [runListener, dropHandler, bind, M.bind, getEvent, emit, pure, M.pure,
                classListRemove, getData, jsonParse, scopeApply, scopeDrop, callFn, typeOf,
                throwJS, hdt, hsp, hj, hr, hd, hi])

/-- Witness of C7: a drop whose `dragData` entry is missing, so that parsing fails. -/
theorem drop_stops_propagation_first_witness :
    (sampleEvent "drop" emptyTransfer).stopPropagation = true ∧
      ∃ rest, (runListener (dropHandler samplePlatform ⟨.ok .undefined⟩) []
          (sampleEvent "drop" emptyTransfer)).2.trace = .stopPropagation :: rest ∧
        .stopPropagation ∉ rest :=
  ⟨rfl, drop_stops_propagation_first samplePlatform ⟨.ok .undefined⟩ []
    (sampleEvent "drop" emptyTransfer) rfl⟩

/-- C8: for a drop event whose `dragData` payload is not valid JSON, the drop
listener ends with the `SyntaxError` of `JSON.parse`; it has not evaluated
`scope.drop()`, evaluated no call and not entered `scope.$apply`, and the class
`over` is already removed from the node.  The payload of an event with no
`dragData` entry is the empty string, so the same holds for such an event
whenever the parser rejects the empty string. -/
theorem drop_invalid_payload (P : Platform) (scope : Scope) (cls : List String)
    (e : Event) (dt : DataTransfer)
    (hdt : e.dataTransfer = some dt)
    (hjson : P.jsonParse (dt.getData "dragData") = none) :
    (∃ msg, (runListener (dropHandler P scope) cls e).1 = .error (.syntaxError msg)) ∧
      (runListener (dropHandler P scope) cls e).2.trace.filter Effect.reachesCaller = [] ∧
      (runListener (dropHandler P scope) cls e).2.this = tokensRemove cls "over" ∧
      "over" ∉ (runListener (dropHandler P scope) cls e).2.this ∧
      (dt.items.lookup "dragData" = none → dt.getData "dragData" = "") := by
  refine ⟨?_, ?_, ?_, ?_, ?_⟩
  case refine_5 => intro h; simp [DataTransfer.getData, h]
  all_goals
    cases hsp : e.stopPropagation <;>
      simp [runListener, dropHandler, bind, M.bind, getEvent, emit, pure, M.pure,
        classListRemove, getData, jsonParse, throwJS, Effect.reachesCaller, tokensRemove,
        hdt, hsp, hjson]

/-- Witness of C8: a drop whose drag source set no `dragData` entry. -/
theorem drop_invalid_payload_witness :
    (sampleEvent "drop" emptyTransfer).dataTransfer = some emptyTransfer ∧
      samplePlatform.jsonParse (emptyTransfer.getData "dragData") = none ∧
      (runListener (dropHandler samplePlatform ⟨.ok (.function 7)⟩) ["over"]
          (sampleEvent "drop" emptyTransfer)).2.trace.filter Effect.reachesCaller = [] :=
  ⟨rfl, by decide,
    (drop_invalid_payload samplePlatform ⟨.ok (.function 7)⟩ ["over"]
      (sampleEvent "drop" emptyTransfer) emptyTransfer rfl (by decide)).2.1⟩

/-! ## Linking -/

/-- C6: linking the directive to an element leaves every node of the wrapper
but the first untouched and appends exactly four registrations to the first
node, `element[0]`: one each for `dragover`, `dragenter`, `dragleave` and `drop`,
in this order, each with `useCapture` false and each with the listener of that
name; no registration for any other event type is added. -/
theorem link_registers_four_listeners (scope : Scope) (el : Node) (rest : List Node) :
    ∃ el1 added, link scope (el :: rest) = .ok (el1 :: rest) ∧
      el1.classList = el.classList ∧
      el1.listeners = el.listeners ++ added ∧
      added.length = 4 ∧
      added.map (fun r => (r.type, r.useCapture))
        = [("dragover", false), ("dragenter", false), ("dragleave", false), ("drop", false)] ∧
      added = [⟨"dragover", .dragover, false⟩, ⟨"dragenter", .dragenter, false⟩,
               ⟨"dragleave", .dragleave, false⟩, ⟨"drop", .drop scope, false⟩] := by
  refine ⟨_, [⟨"dragover", .dragover, false⟩, ⟨"dragenter", .dragenter, false⟩,
               ⟨"dragleave", .dragleave, false⟩, ⟨"drop", .drop scope, false⟩], rfl, rfl, ?_,
    rfl, rfl, rfl⟩
  simp [addEventListener]

/-! ## Delivery to a linked node -/

/-- Linking a fresh node yields the node with the four registrations. -/
theorem link_fresh (scope : Scope) (cls : List String) (el : Node)
    (hlink : link scope [⟨cls, []⟩] = .ok [el]) :
    el.classList = cls ∧
      el.listeners = [⟨"dragover", .dragover, false⟩, ⟨"dragenter", .dragenter, false⟩,
                      ⟨"dragleave", .dragleave, false⟩, ⟨"drop", .drop scope, false⟩] := by
  simp [link, addEventListener] at hlink
  subst hlink
  exact ⟨rfl, rfl⟩

/-- The drop listener removes `over` from the class list, whatever else happens. -/
theorem dropHandler_this (P : Platform) (scope : Scope) (c : Ctx) :
    (dropHandler P scope c).2.this = tokensRemove c.this "over" := by
  cases hsp : c.e.stopPropagation <;> cases hdt : c.e.dataTransfer with
  | none =>
    simp [dropHandler, bind, M.bind, getEvent, emit, pure, M.pure, classListRemove, getData,
      hdt, hsp]
  | some dt =>
    cases hj : P.jsonParse (dt.getData "dragData") with
    | none =>
      simp [dropHandler, bind, M.bind, getEvent, emit, pure, M.pure, classListRemove, getData,
        jsonParse, throwJS, hdt, hsp, hj]
    | some v =>
      cases hr : P.rethrow <;> cases hd : scope.drop with
      | error err =>
        simp [dropHandler, bind, M.bind, getEvent, emit, pure, M.pure, classListRemove,
          getData, jsonParse, scopeApply, scopeDrop, throwJS, hdt, hsp, hj, hr, hd]
      | ok fn =>
        cases fn <;>
          first
          | (simp [dropHandler, bind, M.bind, getEvent, emit, pure, M.pure, classListRemove,
              getData, jsonParse, scopeApply, scopeDrop, callFn, typeOf, throwJS, hdt, hsp, hj,
              hr, hd]; done)
          | (rename_i ref
             cases hi : P.invoke ref [.event c.e, .value v] <;>
              simp [dropHandler, bind, M.bind, getEvent, emit, pure, M.pure, classListRemove,
                getData, jsonParse, scopeApply, scopeDrop, callFn, typeOf, throwJS, hdt, hsp,
                hj, hr, hd, hi])

/-- The class `over` is in a token list after `add('over')`. -/
theorem mem_tokensAdd (cls : List String) (token : String) : token ∈ tokensAdd cls token := by
  unfold tokensAdd
  split <;> simp_all

/-- The class `over` is not in a token list after `remove('over')`. -/
theorem not_mem_tokensRemove (cls : List String) (token : String) :
    token ∉ tokensRemove cls token := by
  simp [tokensRemove]

/-- One delivery to a node that carries the four registrations: the
registrations stay, and `over` is in the class list afterwards exactly when the
event was a dragover or a dragenter. -/
theorem dispatchEvent_over (P : Platform) (scope : Scope) (el : Node) (e : Event)
    (hl : el.listeners = [⟨"dragover", .dragover, false⟩, ⟨"dragenter", .dragenter, false⟩,
                          ⟨"dragleave", .dragleave, false⟩, ⟨"drop", .drop scope, false⟩])
    (hty : e.type = "dragover" ∨ e.type = "dragenter" ∨ e.type = "dragleave" ∨ e.type = "drop")
    (hdt : e.dataTransfer ≠ none) :
    (dispatchEvent P el e).el.listeners = el.listeners ∧
      ("over" ∈ (dispatchEvent P el e).el.classList ↔
        (e.type = "dragover" ∨ e.type = "dragenter")) := by
  refine ⟨rfl, ?_⟩
  obtain ⟨dt, hdt⟩ := Option.ne_none_iff_exists'.mp hdt
  rcases hty with h | h | h | h
  · cases hpd : e.preventDefault <;>
      simp [dispatchEvent, runRegistrations, hl, h, Listener.run, dragoverHandler, bind, M.bind,
        getEvent, emit, pure, M.pure, classListAdd, setDropEffect, hdt, hpd, mem_tokensAdd]
  · simp [dispatchEvent, runRegistrations, hl, h, Listener.run, dragenterHandler, bind, M.bind,
      pure, M.pure, classListAdd, mem_tokensAdd]
  · simp [dispatchEvent, runRegistrations, hl, h, Listener.run, dragleaveHandler, bind, M.bind,
      pure, M.pure, classListRemove, not_mem_tokensRemove]
  · simp [dispatchEvent, runRegistrations, hl, h, Listener.run, dropHandler_this,
      not_mem_tokensRemove]

/-- Delivery of a non-empty sequence to a node that carries the four
registrations: `over` is in the class list afterwards exactly when the last
event was a dragover or a dragenter. -/
theorem dispatchAll_over (P : Platform) (scope : Scope) (es : List Event) (hne : es ≠ [])
    (hall : ∀ e ∈ es, (e.type = "dragover" ∨ e.type = "dragenter" ∨ e.type = "dragleave" ∨
      e.type = "drop") ∧ e.dataTransfer ≠ none) (el : Node)
    (hl : el.listeners = [⟨"dragover", .dragover, false⟩, ⟨"dragenter", .dragenter, false⟩,
                          ⟨"dragleave", .dragleave, false⟩, ⟨"drop", .drop scope, false⟩]) :
    "over" ∈ (dispatchAll P el es).classList ↔
      ((es.getLast hne).type = "dragover" ∨ (es.getLast hne).type = "dragenter") := by
  induction es generalizing el with
  | nil => exact absurd rfl hne
  | cons e es ih =>
    have he := hall e (List.mem_cons_self e es)
    have hstep := dispatchEvent_over P scope el e hl he.1 he.2
    cases es with
    | nil => simpa [dispatchAll] using hstep.2
    | cons e2 es2 =>
      have hne2 : e2 :: es2 ≠ [] := List.cons_ne_nil e2 es2
      have := ih hne2 (fun x hx => hall x (List.mem_cons_of_mem e hx))
        (dispatchEvent P el e).el (hstep.1.trans hl)
      simpa [dispatchAll, List.getLast_cons hne2] using this

/-- C4: the class `over` tracks the last drag event.  Take a node with any
initial class list, link the directive to it, and deliver any non-empty
sequence of dragover, dragenter, dragleave and drop events, each carrying a
`dataTransfer` object.  Afterwards the class list contains `over` if and only
if the last event was a dragover or a dragenter; in particular it does not
contain `over` when the last event was a dragleave or a drop. -/
theorem over_tracks_last_event (P : Platform) (scope : Scope) (cls : List String)
    (es : List Event) (el : Node)
    (hne : es ≠ [])
    (hall : ∀ e ∈ es, (e.type = "dragover" ∨ e.type = "dragenter" ∨ e.type = "dragleave" ∨
      e.type = "drop") ∧ e.dataTransfer ≠ none)
    (hlink : link scope [⟨cls, []⟩] = .ok [el]) :
    ("over" ∈ (dispatchAll P el es).classList ↔
        ((es.getLast hne).type = "dragover" ∨ (es.getLast hne).type = "dragenter")) ∧
      (((es.getLast hne).type = "dragleave" ∨ (es.getLast hne).type = "drop") →
        "over" ∉ (dispatchAll P el es).classList) := by
  have key := dispatchAll_over P scope es hne hall el (link_fresh scope cls el hlink).2
  refine ⟨key, ?_⟩
  intro h hmem
  rcases key.mp hmem with h1 | h1 <;> rcases h with h2 | h2 <;> rw [h1] at h2 <;>
    exact absurd h2 (by decide)

/-- Witness of C4: a drop followed by a dragenter, delivered to a linked node
that starts without classes, leaves the node with `over`. -/
theorem over_tracks_last_event_witness :
    ∃ el, link ⟨.ok .undefined⟩ [⟨[], []⟩] = .ok [el] ∧
      "over" ∈ (dispatchAll samplePlatform el
        [sampleEvent "drop" sampleTransfer, sampleEvent "dragenter" sampleTransfer]).classList :=
  ⟨_, rfl,
    (over_tracks_last_event samplePlatform ⟨.ok .undefined⟩ []
      [sampleEvent "drop" sampleTransfer, sampleEvent "dragenter" sampleTransfer] _
      (by decide) (by decide) rfl).1.mpr (by decide)⟩

/-! ## Only a drop reaches the caller -/

/-- The drop listener invokes the callback at most once. -/
theorem dropHandler_invocations_le_one (P : Platform) (scope : Scope) (cls : List String)
    (e : Event) :
    (invocations (runListener (dropHandler P scope) cls e).2.trace).length ≤ 1 := by
  cases hsp : e.stopPropagation <;> cases hdt : e.dataTransfer with
  | none =>
    simp [runListener, invocations, Effect.isInvocation, dropHandler, bind, M.bind, getEvent,
      emit, pure, M.pure, classListRemove, getData, hdt, hsp]
  | some dt =>
    cases hj : P.jsonParse (dt.getData "dragData") with
    | none =>
      simp [runListener, invocations, Effect.isInvocation, dropHandler, bind, M.bind, getEvent,
        emit, pure, M.pure, classListRemove, getData, jsonParse, throwJS, hdt, hsp, hj]
    | some v =>
      cases hr : P.rethrow <;> cases hd : scope.drop with
      | error err =>
        simp [runListener, invocations, Effect.isInvocation, dropHandler, bind, M.bind,
          getEvent, emit, pure, M.pure, classListRemove, getData, jsonParse, scopeApply,
          scopeDrop, throwJS, hdt, hsp, hj, hr, hd]
      | ok fn =>
        cases fn <;>
          first
          | (simp [runListener, invocations, Effect.isInvocation, dropHandler, bind, M.bind,
              getEvent, emit, pure, M.pure, classListRemove, getData, jsonParse, scopeApply,
              scopeDrop, callFn, typeOf, throwJS, hdt, hsp, hj, hr, hd]; done)
          | (rename_i ref
             cases hi : P.invoke ref [.event e, .value v] <;>
              simp [runListener, invocations, Effect.isInvocation, dropHandler, bind, M.bind,
                getEvent, emit, pure, M.pure, classListRemove, getData, jsonParse, scopeApply,
                scopeDrop, callFn, typeOf, throwJS, hdt, hsp, hj, hr, hd, hi])

/-- The dragover listener performs no step that reaches the caller. -/
theorem dragoverHandler_quiet (cls : List String) (e : Event) :
    (runListener dragoverHandler cls e).2.trace.filter Effect.reachesCaller = [] := by
  cases hdt : e.dataTransfer <;> cases hpd : e.preventDefault <;>
    simp [runListener, dragoverHandler, bind, M.bind, getEvent, emit, pure, M.pure,
      classListAdd, setDropEffect, Effect.reachesCaller, hdt, hpd]

/-- The dragover listener leaves the type of the event as it was. -/
theorem dragoverHandler_type (c : Ctx) : (dragoverHandler c).2.e.type = c.e.type := by
  cases hdt : c.e.dataTransfer <;> cases hpd : c.e.preventDefault <;>
    simp [dragoverHandler, bind, M.bind, getEvent, emit, pure, M.pure, classListAdd,
      setDropEffect, hdt, hpd]

/-- The steps of one delivery to a node that carries the four registrations
are the steps of the one listener registered for the type of the event, and
there are none when the type is not one of the four. -/
theorem dispatchEvent_trace (P : Platform) (scope : Scope) (el : Node) (e : Event)
    (hl : el.listeners = [⟨"dragover", .dragover, false⟩, ⟨"dragenter", .dragenter, false⟩,
                          ⟨"dragleave", .dragleave, false⟩, ⟨"drop", .drop scope, false⟩]) :
    (dispatchEvent P el e).trace =
      if e.type = "dragover" then (runListener dragoverHandler el.classList e).2.trace
      else if e.type = "dragenter" then (runListener dragenterHandler el.classList e).2.trace
      else if e.type = "dragleave" then (runListener dragleaveHandler el.classList e).2.trace
      else if e.type = "drop" then (runListener (dropHandler P scope) el.classList e).2.trace
      else [] := by
  by_cases h1 : e.type = "dragover"
  · have := dragoverHandler_type { this := el.classList, e := e, trace := [] }
    simp only [h1] at this
    simp [dispatchEvent, runRegistrations, hl, h1, Listener.run, runListener, this]
  · by_cases h2 : e.type = "dragenter"
    · simp [dispatchEvent, runRegistrations, hl, h2, Listener.run, runListener,
        dragenterHandler, bind, M.bind, pure, M.pure, classListAdd]
    · by_cases h3 : e.type = "dragleave"
      · simp [dispatchEvent, runRegistrations, hl, h3, Listener.run, runListener,
          dragleaveHandler, bind, M.bind, pure, M.pure, classListRemove]
      · by_cases h4 : e.type = "drop"
        · simp [dispatchEvent, runRegistrations, hl, h4, Listener.run, runListener]
        · simp [dispatchEvent, runRegistrations, hl, h1, h2, h3, h4, Ne.symm h1, Ne.symm h2,
            Ne.symm h3, Ne.symm h4, eq_comm]

/-- A trace with no step that reaches the caller has no callback invocation. -/
theorem invocations_of_quiet (t : List Effect) (h : t.filter Effect.reachesCaller = []) :
    invocations t = [] := by
  rw [List.filter_eq_nil_iff] at h
  rw [invocations, List.filter_eq_nil_iff]
  intro a ha hinv
  apply h a ha
  cases a <;> simp_all [Effect.isInvocation, Effect.reachesCaller]

/-- C9: only a drop reaches the caller.  The dragover, dragenter and dragleave
listeners never evaluate the drop binding, never evaluate a call and never
enter `scope.$apply`, for any event; the drop listener invokes the callback at
most once.  On a linked node, the delivery of an event of any type other than
`drop` performs none of these steps, and the delivery of any event invokes the
callback at most once. -/
theorem only_drop_reaches_caller (P : Platform) (scope : Scope) (cls : List String)
    (e : Event) (el : Node) (hlink : link scope [⟨cls, []⟩] = .ok [el]) :
    (runListener dragoverHandler cls e).2.trace.filter Effect.reachesCaller = [] ∧
      (runListener dragenterHandler cls e).2.trace.filter Effect.reachesCaller = [] ∧
      (runListener dragleaveHandler cls e).2.trace.filter Effect.reachesCaller = [] ∧
      (invocations (runListener (dropHandler P scope) cls e).2.trace).length ≤ 1 ∧
      (e.type ≠ "drop" → (dispatchEvent P el e).trace.filter Effect.reachesCaller = []) ∧
      (invocations (dispatchEvent P el e).trace).length ≤ 1 := by
  obtain ⟨hc, hl⟩ := link_fresh scope cls el hlink
  have hover := dragoverHandler_quiet cls e
  have henter : (runListener dragenterHandler cls e).2.trace.filter Effect.reachesCaller = [] := by
    simp [runListener, dragenterHandler, bind, M.bind, pure, M.pure, classListAdd,
      Effect.reachesCaller]
  have hleave : (runListener dragleaveHandler cls e).2.trace.filter Effect.reachesCaller = [] := by
    simp [runListener, dragleaveHandler, bind, M.bind, pure, M.pure, classListRemove,
      Effect.reachesCaller]
  have hdrop := dropHandler_invocations_le_one P scope cls e
  refine ⟨hover, henter, hleave, hdrop, ?_, ?_⟩
  · intro hnd
    rw [dispatchEvent_trace P scope el e hl, hc]
    split_ifs <;> simp_all
  · rw [dispatchEvent_trace P scope el e hl, hc]
    split_ifs
    · simp [invocations_of_quiet _ hover]
    · simp [invocations_of_quiet _ henter]
    · simp [invocations_of_quiet _ hleave]
    · exact hdrop
    · simp [invocations]

/-- Witness of C9: a dragover delivered to a linked node whose binding yields a function. -/
theorem only_drop_reaches_caller_witness :
    ∃ el, link ⟨.ok (.function 7)⟩ [⟨[], []⟩] = .ok [el] ∧
      (sampleEvent "dragover" sampleTransfer).type ≠ "drop" ∧
      (dispatchEvent samplePlatform el
        (sampleEvent "dragover" sampleTransfer)).trace.filter Effect.reachesCaller = [] :=
  ⟨_, rfl, by decide,
    (only_drop_reaches_caller samplePlatform ⟨.ok (.function 7)⟩ []
      (sampleEvent "dragover" sampleTransfer) _ rfl).2.2.2.2.1 (by decide)⟩

end Droppable
